import Mathlib

/-!
Verification development for the `workers-almaviva` appointment-checking
worker (source: `src/worker.ts`).  The worker's logic is embedded shallowly:

* the proleptic Gregorian calendar arithmetic performed by the JavaScript
  `Date` object (an external runtime collaborator) is modelled by
  `CivilDate`, `daysInMonth`, `nextDay`, `predDay` and `jsDateUTC`;
* the key-value store is a record `KV` of the five-plus-one keys the worker
  uses; every write additionally appends an event to a trace, so that the
  order of store writes and message sends is observable;
* the external HTTP world (login endpoint, disabled-dates endpoint,
  Telegram endpoint, clock, digest) is an oracle `World`: each endpoint is
  a stream of responses indexed by how many requests have been issued so
  far.  The SHA-256 digest (`crypto.subtle`) is modelled as an arbitrary
  function `World.sha256Hex`;
* fallible steps return `Except String` values; `throw new Error(msg)`
  becomes `Except.error msg`;
* the unbounded 401-retry recursion in `fetchAvailableDates` is given an
  explicit fuel parameter; exhausting the fuel yields a sentinel error that
  the real (unbounded) code can never produce.
-/

namespace AlmavivaWorker

/-! ## Calendar model (JavaScript `Date`, proleptic Gregorian, UTC) -/

/-- Calendar date: year (arbitrary integer), 1-based month, 1-based day. -/
structure CivilDate where
  y : Int
  m : Nat
  d : Nat
deriving DecidableEq, Repr

/-- Gregorian leap-year rule, as implemented by the JavaScript `Date`. -/
def isLeapYear (y : Int) : Bool :=
  y % 4 = 0 && (y % 100 ≠ 0 || y % 400 = 0)

/-- Number of days in a month of a given year. -/
def daysInMonth (y : Int) (m : Nat) : Nat :=
  if m = 2 then (if isLeapYear y then 29 else 28)
  else if m = 4 ∨ m = 6 ∨ m = 9 ∨ m = 11 then 30
  else 31

/-- The calendar day after `c`. -/
def nextDay (c : CivilDate) : CivilDate :=
  if c.d < daysInMonth c.y c.m then ⟨c.y, c.m, c.d + 1⟩
  else if c.m < 12 then ⟨c.y, c.m + 1, 1⟩
  else ⟨c.y + 1, 1, 1⟩

/-- The calendar day before `c`. -/
def predDay (c : CivilDate) : CivilDate :=
  if 2 ≤ c.d then ⟨c.y, c.m, c.d - 1⟩
  else if 2 ≤ c.m then ⟨c.y, c.m - 1, daysInMonth c.y (c.m - 1)⟩
  else ⟨c.y - 1, 12, 31⟩

/-- Chronological order on calendar dates (the JavaScript comparison
`d <= end` between `Date` objects), lexicographic on year, month, day. -/
def dateLE (a b : CivilDate) : Bool :=
  decide (a.y < b.y ∨ (a.y = b.y ∧ (a.m < b.m ∨ (a.m = b.m ∧ a.d ≤ b.d))))

/-- Left-pad a number to two digits, as `pad2` in the source
(`n.toString().padStart(2, "0")`). -/
def pad2 (n : Nat) : String :=
  if n < 10 then "0" ++ toString n else toString n

/-- Left-pad a year to four digits, as `Date.prototype.toISOString` renders
years in the range the worker exercises. -/
def pad4 (y : Int) : String :=
  if y < 0 then toString y
  else if y < 10 then "000" ++ toString y
  else if y < 100 then "00" ++ toString y
  else if y < 1000 then "0" ++ toString y
  else toString y

/-- First ten characters of `Date.prototype.toISOString`: the
`"YYYY-MM-DD"` rendering of a date (`toISOString().slice(0, 10)`). -/
def isoOfDate (c : CivilDate) : String :=
  pad4 c.y ++ "-" ++ pad2 c.m ++ "-" ++ pad2 c.d

/-- Month-overflow normalisation done by `Date.UTC(y, m, d)`: the 0-based
month argument `m` may be any integer and is folded into the year. -/
def jsMonthNorm (y m : Int) : Int × Nat :=
  (y + m / 12, (m % 12).toNat)

/-- Model of `Date.UTC(y, m, d)` for the day arguments the worker uses
(`d = 1` and `d = 0`): the month is normalised into the year, and day `0`
denotes the day before the first of the (normalised) month. -/
def jsDateUTC (y m : Int) (d : Nat) : CivilDate :=
  let p := jsMonthNorm y m
  if d = 0 then predDay ⟨p.1, p.2 + 1, 1⟩ else ⟨p.1, p.2 + 1, d⟩

/-! ## MonthRange and calculateMonthRange (source lines 159-171) -/

/-- Month range as produced by `calculateMonthRange`.  `startDate` and
`endDate` are model artifacts: the source stores only the ISO strings and
re-parses `startISO`/`endISO` inside `computeAvailableDays`; here the
parsed calendar dates are carried alongside (by construction
`startISO = isoOfDate startDate` and `endISO = isoOfDate endDate`). -/
structure MonthRange where
  startISO : String
  endISO : String
  displayMonth : Nat
  displayYear : Int
  startDate : CivilDate
  endDate : CivilDate
deriving DecidableEq, Repr

/-- Source `calculateMonthRange(offset)`.  `nowYear`/`nowMonth0` are the
current UTC year and 0-based month (`new Date()` is an external input).
`first` is `Date.UTC(year, month + offset, 1)` and `last` is
`Date.UTC(first.year, first.month0 + 1, 0)`. -/
def calculateMonthRange (nowYear : Int) (nowMonth0 : Nat) (offset : Int) : MonthRange :=
  let first := jsDateUTC nowYear ((nowMonth0 : Int) + offset) 1
  let last := jsDateUTC first.y ((first.m : Int) - 1 + 1) 0
  { startISO := isoOfDate first
    endISO := isoOfDate last
    displayMonth := first.m
    displayYear := first.y
    startDate := first
    endDate := last }

/-! ## Small helpers (source lines 292-314) -/

/-- Value of the leading run of decimal digits of a character list, `none`
when the run is empty. -/
def digitsVal (cs : List Char) : Option Nat :=
  let ds := cs.takeWhile (fun c => c.isDigit)
  if ds = [] then none
  else some (ds.foldl (fun a c => a * 10 + (c.toNat - 48)) 0)

/-- Model of JavaScript `parseInt(s, 10)`: an optional sign followed by
leading decimal digits; `none` models `NaN`. -/
def jsParseInt10 (s : String) : Option Int :=
  match s.data with
  | '-' :: rest => (digitsVal rest).map (fun n => -(n : Int))
  | '+' :: rest => (digitsVal rest).map (fun n => (n : Int))
  | cs => (digitsVal cs).map (fun n => (n : Int))

/-- Source `truncate(s, max)` (lines 312-314): `s.slice(0, max - 3) + "..."`
when `s` is longer than `max`, else `s` unchanged.  The worker calls it with
`max` 300 and 200 only; for `max ≥ 3` the slice is `String.take (max - 3)`. -/
def truncate (s : String) (max : Nat) : String :=
  if s.length > max then s.take (max - 3) ++ "..." else s

/-! ## Store, event trace, worker state -/

/-- Parsed credential stored under the `"Cookie"` key (only `accessToken`
is consumed by the logic; the opaque extra fields do not influence it). -/
structure AuthCookie where
  accessToken : String
deriving DecidableEq, Repr

/-- The key-value store: one field per key the worker uses, `none` when the
key is absent (`get` returned `null`).  The credential is held in parsed
form (the source stores its JSON rendering and re-parses it on `get`). -/
structure KV where
  cookie : Option AuthCookie
  last : Option String
  lastAuth : Option String
  lastDates : Option String
  failCount : Option String
  lastErrorMsg : Option String
deriving DecidableEq, Repr

/-- Observable event: a store write, a store delete, or a Telegram
`sendMessage` POST carrying the message text.  (A `Cookie` write records
the credential's token as its value.) -/
inductive Ev where
  | put : String → String → Ev
  | del : String → Ev
  | send : String → Ev
deriving DecidableEq, Repr

/-- State threaded through a model run: the store, one request counter per
remote endpoint (the index into that endpoint's oracle stream), the event
trace, and the console-error log. -/
structure St where
  kv : KV
  loginCnt : Nat
  fetchCnt : Nat
  tgCnt : Nat
  events : List Ev
  errLog : List String
deriving DecidableEq, Repr

def kvPutCookie (st : St) (c : AuthCookie) : St :=
  { st with kv := { st.kv with cookie := some c },
            events := st.events ++ [Ev.put "Cookie" c.accessToken] }

def kvDelCookie (st : St) : St :=
  { st with kv := { st.kv with cookie := none },
            events := st.events ++ [Ev.del "Cookie"] }

def kvPutLast (st : St) (v : String) : St :=
  { st with kv := { st.kv with last := some v },
            events := st.events ++ [Ev.put "Last" v] }

def kvPutLastAuth (st : St) (v : String) : St :=
  { st with kv := { st.kv with lastAuth := some v },
            events := st.events ++ [Ev.put "Last_auth" v] }

def kvPutLastDates (st : St) (v : String) : St :=
  { st with kv := { st.kv with lastDates := some v },
            events := st.events ++ [Ev.put "Last_dates" v] }

def kvPutFailCount (st : St) (v : String) : St :=
  { st with kv := { st.kv with failCount := some v },
            events := st.events ++ [Ev.put "fail_count" v] }

def kvPutLastErrorMsg (st : St) (v : String) : St :=
  { st with kv := { st.kv with lastErrorMsg := some v },
            events := st.events ++ [Ev.put "last_error_msg" v] }

def kvDelLastErrorMsg (st : St) : St :=
  { st with kv := { st.kv with lastErrorMsg := none },
            events := st.events ++ [Ev.del "last_error_msg"] }

/-- Texts of the Telegram messages POSTed so far, in order. -/
def sentTexts (st : St) : List String :=
  st.events.filterMap (fun e =>
    match e with
    | Ev.send t => some t
    | _ => none)

/-! ## External world oracle and configuration -/

/-- Response of the login endpoint: the parsed credential on 2xx, otherwise
the HTTP status and response body text. -/
inductive LoginResp where
  | ok : AuthCookie → LoginResp
  | fail : Nat → String → LoginResp

/-- Response of the disabled-dates endpoint: the HTTP status plus, for 2xx
responses, the parsed JSON body — a list of records, each carrying an
optional `date` field (`none` models a record with the field missing).
`body = none` models a 2xx response whose body fails to parse as JSON. -/
structure FetchResp where
  status : Nat
  body : Option (List (Option String))

/-- The external world: current UTC year and 0-based month (`new Date()`),
the clock rendering used by `timestamp()`, the SHA-256 digest
(`crypto.subtle`), and one response stream per remote endpoint, indexed by
how many requests that endpoint has received. -/
structure World where
  nowYear : Int
  nowMonth0 : Nat
  ts : String
  sha256Hex : String → String
  loginResp : Nat → LoginResp
  fetchResp : Nat → FetchResp
  tgOk : Nat → Bool

/-- Configuration.  `monthOffset` is `parseInt(env.TARGET_MONTH_OFFSET ||
"0", 10)` already parsed; `siteId` and `persons` only enter the request
URL, which the oracle abstracts. -/
structure Env where
  siteId : String
  persons : String
  monthOffset : Int
deriving DecidableEq, Repr

/-- Source `timestamp()` (lines 292-295): the Moscow-time clock rendering,
an external input. -/
def timestamp (w : World) : String := w.ts

/-! ## Authentication (source lines 73-102) -/

/-- Source `login(env)` (lines 81-102).  On non-2xx: throw.  On 2xx: store
the credential (the 8-hour `expirationTtl` is the store's own concern and
is not modelled), record the auth timestamp, return the credential. -/
def login (w : World) (st : St) : St × Except String AuthCookie :=
  let r := w.loginResp st.loginCnt
  let st := { st with loginCnt := st.loginCnt + 1 }
  match r with
  | LoginResp.fail status body =>
      (st, Except.error ("Login failed: " ++ toString status ++ " " ++ body))
  | LoginResp.ok json =>
      let st := kvPutCookie st json
      let st := kvPutLastAuth st (timestamp w)
      (st, Except.ok json)

/-- Source `ensureAuth(env)` (lines 73-79). -/
def ensureAuth (w : World) (st : St) : St × Except String AuthCookie :=
  match st.kv.cookie with
  | some cookie => (st, Except.ok cookie)
  | none => login w st

/-! ## Availability (source lines 113-195) -/

/-- The while-loop of `computeAvailableDays` (lines 175-181): ISO
renderings of the days from `d` to `endDate` inclusive.  `fuel` bounds the
iteration count (a model artifact: any fuel at least the number of days in
the range yields the loop's full result; a month has at most 31 days). -/
def allDatesFrom (endDate : CivilDate) : Nat → CivilDate → List String
  | 0, _ => []
  | fuel + 1, d =>
      if dateLE d endDate then isoOfDate d :: allDatesFrom endDate fuel (nextDay d)
      else []

/-- Source `computeAvailableDays(disabledDates, range)` (lines 173-195).
A record is its optional `date` field.  Falsy date fields (missing, or the
empty string) are dropped by `if (!x.date) return null` plus
`.filter(Boolean)`; a present field contributes `x.date.substring(0, 10)`;
the month's days not in that set survive the final filter. -/
def computeAvailableDays (disabledDates : List (Option String)) (range : MonthRange) :
    List String :=
  let all := allDatesFrom range.endDate 366 range.startDate
  let disabledSet := disabledDates.filterMap (fun x =>
    match x with
    | none => none
    | some s => if s = "" then none else some (s.take 10))
  all.filter (fun dateISO => !(decide (dateISO ∈ disabledSet)))

/-- Source `fetchAvailableDates(env, cookie)` (lines 113-157).  `cookie`
only feeds request headers, which the oracle abstracts.  On 401/403 the
source deletes the credential, logs in afresh and recurses with no bound;
`fuel` makes that recursion well-founded here, and the fuel-0 sentinel
error is a model artifact the unbounded source can never produce. -/
def fetchAvailableDates (env : Env) (w : World) (cookie : AuthCookie) :
    Nat → St → St × Except String (List String × MonthRange)
  | 0, st => (st, Except.error "model: fuel exhausted in unbounded 401-retry recursion")
  | fuel + 1, st =>
    let range := calculateMonthRange w.nowYear w.nowMonth0 env.monthOffset
    let r := w.fetchResp st.fetchCnt
    let st := { st with fetchCnt := st.fetchCnt + 1 }
    if r.status = 401 ∨ r.status = 403 then
      let st := kvDelCookie st
      match login w st with
      | (st, Except.error e) => (st, Except.error e)
      | (st, Except.ok newCookie) => fetchAvailableDates env w newCookie fuel st
    else if r.status < 200 ∨ 300 ≤ r.status then
      let st := kvPutLast st (toString r.status ++ ":" ++ timestamp w)
      (st, Except.error ("Dates fetch failed: " ++ toString r.status))
    else
      let st := kvPutLast st ("200:" ++ timestamp w)
      match r.body with
      | none => (st, Except.error "SyntaxError: unexpected end of JSON input")
      | some disabledList =>
          (st, Except.ok (computeAvailableDays disabledList range, range))

/-! ## Notification (source lines 199-219, 249-271) -/

/-- Source `buildDatesMessage(dates, range)` (lines 214-219). -/
def buildDatesMessage (dates : List String) (range : MonthRange) : String :=
  let header := "✅ Free dates for " ++ pad2 range.displayMonth ++ "/" ++
    toString range.displayYear ++ ":"
  let list := String.intercalate "\n" ((dates.take 15).map (fun d => "• " ++ d))
  let extra :=
    if dates.length > 15 then "\n…(+" ++ toString (dates.length - 15) ++ " more)" else ""
  header ++ "\n" ++ list ++ extra

/-- Source `sendTelegram(env, text)` (lines 249-271): empty text is
skipped; otherwise the message is POSTed; a non-2xx response is only
logged to the console.  No branch throws. -/
def sendTelegram (w : World) (st : St) (text : String) : St × Except String Unit :=
  if text = "" then (st, Except.ok ())
  else
    let delivered := w.tgOk st.tgCnt
    let st := { st with tgCnt := st.tgCnt + 1, events := st.events ++ [Ev.send text] }
    if delivered then (st, Except.ok ())
    else ({ st with errLog := st.errLog ++ ["Telegram send failed"] }, Except.ok ())

/-- Source `maybeNotifyNewDates(env, dates, range)` (lines 199-212). -/
def maybeNotifyNewDates (w : World) (st : St) (dates : List String) (range : MonthRange) :
    St × Except String Unit :=
  let hash := w.sha256Hex (String.intercalate "," dates)
  if st.kv.lastDates = some hash then (st, Except.ok ())
  else
    let st := kvPutLastDates st hash
    sendTelegram w st (buildDatesMessage dates range)

/-! ## Failure tracking (source lines 223-245) -/

/-- Source `recordFailureAndMaybeNotify(env, err)` (lines 223-240), with
`msg` the error's message text.  `parseInt` of a non-numeric stored counter
yields `NaN` (the `none` branch): the counter is then stored as `"NaN"`,
and since `NaN === 3`, `NaN === 5` and `NaN % 10 === 0` are all false only
the changed-message path can notify there. -/
def recordFailureAndMaybeNotify (w : World) (st : St) (msg : String) :
    St × Except String Unit :=
  match jsParseInt10 ((st.kv.failCount).getD "0") with
  | some prev =>
    let current : Int := prev + 1
    let st := kvPutFailCount st (toString current)
    if st.kv.lastErrorMsg ≠ some msg then
      let st := kvPutLastErrorMsg st msg
      sendTelegram w st
        ("❗ Error: " ++ truncate msg 300 ++ " (fail #" ++ toString current ++ ")")
    else if current = 3 ∨ current = 5 ∨ Int.tmod current 10 = 0 then
      sendTelegram w st
        ("⚠️ Still failing (" ++ toString current ++ " times): " ++ truncate msg 200)
    else (st, Except.ok ())
  | none =>
    let st := kvPutFailCount st "NaN"
    if st.kv.lastErrorMsg ≠ some msg then
      let st := kvPutLastErrorMsg st msg
      sendTelegram w st ("❗ Error: " ++ truncate msg 300 ++ " (fail #NaN)")
    else (st, Except.ok ())

/-- Source `resetFailureCount(env)` (lines 242-245): write `"0"` to
`fail_count`, then delete `last_error_msg`. -/
def resetFailureCount (st : St) : St :=
  kvDelLastErrorMsg (kvPutFailCount st "0")

/-! ## Orchestration (source lines 47-64) -/

/-- The try-block of `runCheck` (lines 48-59): authenticate, fetch, then
either notify-and-reset (some dates) or reset-and-record (no dates). -/
def runCheckTry (env : Env) (w : World) (fuel : Nat) (st : St) :
    St × Except String Unit :=
  match ensureAuth w st with
  | (st, Except.error e) => (st, Except.error e)
  | (st, Except.ok cookie) =>
    match fetchAvailableDates env w cookie fuel st with
    | (st, Except.error e) => (st, Except.error e)
    | (st, Except.ok (availableDates, monthRange)) =>
      if 0 < availableDates.length then
        match maybeNotifyNewDates w st availableDates monthRange with
        | (st, Except.error e) => (st, Except.error e)
        | (st, Except.ok _) => (resetFailureCount st, Except.ok ())
      else
        let st := resetFailureCount st
        (kvPutLast st ("200:" ++ timestamp w), Except.ok ())

/-- The catch-block of `runCheck` (lines 60-63): log the error to the
console, then hand it to the failure tracker.  An error thrown inside the
catch-block itself would propagate out of `runCheck`. -/
def runCatch (w : World) (st : St) (e : String) : St × Except String Unit :=
  let st := { st with errLog := st.errLog ++ ["runCheck error: " ++ e] }
  recordFailureAndMaybeNotify w st e

/-- Source `runCheck(env)` (lines 47-64). -/
def runCheck (env : Env) (w : World) (fuel : Nat) (st : St) :
    St × Except String Unit :=
  match runCheckTry env w fuel st with
  | (st, Except.ok _) => (st, Except.ok ())
  | (st, Except.error e) => runCatch w st e

/-- The month range with display year `Y` and month `M`: the shape every
`calculateMonthRange` result takes (theorem `calculateMonthRange_months`). -/
def monthRange (Y : Int) (M : Nat) : MonthRange :=
  { startISO := isoOfDate ⟨Y, M, 1⟩
    endISO := isoOfDate ⟨Y, M, daysInMonth Y M⟩
    displayMonth := M
    displayYear := Y
    startDate := ⟨Y, M, 1⟩
    endDate := ⟨Y, M, daysInMonth Y M⟩ }

/-! ## Concrete instances used by witnesses and evaluations -/

/-- Empty store and fresh counters: the state of a first-ever run. -/
def st0 : St :=
  { kv := { cookie := none, last := none, lastAuth := none, lastDates := none,
            failCount := none, lastErrorMsg := none },
    loginCnt := 0, fetchCnt := 0, tgCnt := 0, events := [], errLog := [] }

def env0 : Env := { siteId := "16", persons := "1", monthOffset := 0 }

def cookie0 : AuthCookie := { accessToken := "tok" }

/-- World whose availability endpoint answers 401 to every request and
whose login endpoint always succeeds: persistent expired-credential. -/
def w401 : World :=
  { nowYear := 2025, nowMonth0 := 6, ts := "07.10.2025, 12:00:00",
    sha256Hex := fun s => s,
    loginResp := fun _ => LoginResp.ok cookie0,
    fetchResp := fun _ => { status := 401, body := none },
    tgOk := fun _ => true }

/-- Happy-path world: login succeeds, the availability endpoint returns 200
with the two disabled July records of the spec's scenario, Telegram
accepts every message. -/
def wOK : World :=
  { w401 with fetchResp := fun _ =>
      { status := 200, body := some [some "2025-07-01", some "2025-07-05"] } }

/-- The 29 available July-2025 dates of the spec's scenario (all of July
except the disabled 1st and 5th). -/
def julyDates : List String :=
  computeAvailableDays [some "2025-07-01", some "2025-07-05"] (monthRange 2025 7)

/-! ## Helper lemmas -/

theorem isoOfDate_ne_empty (c : CivilDate) : isoOfDate c ≠ "" := by
  intro h
  have hl := congrArg String.length h
  rw [isoOfDate] at hl
  rw [String.length_append, String.length_append, String.length_append] at hl
  have h1 : ("-" : String).length = 1 := by decide
  have h0 : ("" : String).length = 0 := by decide
  omega

theorem daysInMonth_le_366 (y : Int) (m : Nat) : daysInMonth y m ≤ 366 := by
  unfold daysInMonth
  split
  · split <;> omega
  · split <;> omega

theorem daysInMonth_12 (y : Int) : daysInMonth y 12 = 31 := by
  norm_num [daysInMonth]

theorem dateLE_iff (y1 y2 : Int) (m1 d1 m2 d2 : Nat) :
    dateLE ⟨y1, m1, d1⟩ ⟨y2, m2, d2⟩ = true ↔
      (y1 < y2 ∨ (y1 = y2 ∧ (m1 < m2 ∨ (m1 = m2 ∧ d1 ≤ d2)))) := by
  simp only [dateLE, decide_eq_true_eq]

theorem jsDateUTC_one (y m : Int) :
    jsDateUTC y m 1 = ⟨y + m / 12, (m % 12).toNat + 1, 1⟩ := by
  simp [jsDateUTC, jsMonthNorm]

theorem jsDateUTC_month_zero (Y : Int) (M : Nat) (h1 : 1 ≤ M) (h2 : M ≤ 12) :
    jsDateUTC Y (M : Int) 0 = ⟨Y, M, daysInMonth Y M⟩ := by
  rcases Nat.lt_or_ge M 12 with h | h
  · have hdiv : (M : Int) / 12 = 0 :=
      Int.ediv_eq_zero_of_lt (by exact_mod_cast Nat.zero_le M) (by exact_mod_cast h)
    have hmod : (M : Int) % 12 = M :=
      Int.emod_eq_of_lt (by exact_mod_cast Nat.zero_le M) (by exact_mod_cast h)
    simp [jsDateUTC, jsMonthNorm, hdiv, hmod, predDay]
    omega
  · have hM : M = 12 := le_antisymm h2 h
    subst hM
    norm_num [jsDateUTC, jsMonthNorm, predDay, daysInMonth_12]

theorem allDatesFrom_stop (e d : CivilDate) (h : ¬ dateLE d e = true) (fuel : Nat) :
    allDatesFrom e fuel d = [] := by
  cases fuel with
  | zero => rfl
  | succ k => simp [allDatesFrom, h]

theorem allDatesFrom_month (Y : Int) (M : Nat) :
    ∀ (n d fuel : Nat), 1 ≤ d → d + n = daysInMonth Y M + 1 → n ≤ fuel →
      allDatesFrom ⟨Y, M, daysInMonth Y M⟩ fuel ⟨Y, M, d⟩ =
        (List.range' d n).map (fun k => isoOfDate ⟨Y, M, k⟩) := by
  intro n
  induction n with
  | zero =>
    intro d fuel h1 hd _
    refine (allDatesFrom_stop _ _ ?_ fuel).trans rfl
    rw [dateLE_iff]
    omega
  | succ n ih =>
    intro d fuel h1 hd hf
    obtain ⟨f, rfl⟩ : ∃ f, fuel = f + 1 := ⟨fuel - 1, by omega⟩
    have hle : dateLE ⟨Y, M, d⟩ ⟨Y, M, daysInMonth Y M⟩ = true := by
      rw [dateLE_iff]
      omega
    rw [List.range'_succ d n 1]
    simp only [allDatesFrom, hle, if_pos, List.map_cons]
    congr 1
    by_cases hlt : d < daysInMonth Y M
    · have hnext : nextDay ⟨Y, M, d⟩ = ⟨Y, M, d + 1⟩ := by
        simp [nextDay, hlt]
      rw [hnext]
      exact ih (d + 1) f (by omega) (by omega) (by omega)
    · have hn0 : n = 0 := by omega
      subst hn0
      have hroll : nextDay ⟨Y, M, d⟩ =
          if M < 12 then ⟨Y, M + 1, 1⟩ else ⟨Y + 1, 1, 1⟩ := by
        simp [nextDay, hlt]
      have hstop : ¬ dateLE (nextDay ⟨Y, M, d⟩) ⟨Y, M, daysInMonth Y M⟩ = true := by
        rw [hroll]
        by_cases hm : M < 12
        · rw [if_pos hm, dateLE_iff]
          omega
        · rw [if_neg hm, dateLE_iff]
          omega
      rw [allDatesFrom_stop _ _ hstop f]
      rfl

theorem mem_filterBoolean (recs : List (Option String)) (s : String) (hs : s ≠ "") :
    (s ∈ recs.filterMap (fun x =>
      match x with
      | none => none
      | some t => if t = "" then none else some (t.take 10))) ↔
    (s ∈ recs.filterMap (fun o => o.map (fun t => t.take 10))) := by
  simp only [List.mem_filterMap]
  constructor
  · rintro ⟨x, hx, hfx⟩
    refine ⟨x, hx, ?_⟩
    cases x with
    | none => exact absurd hfx (by simp)
    | some t =>
      have hif : (if t = "" then none else some (t.take 10)) = some s := hfx
      by_cases ht : t = ""
      · rw [if_pos ht] at hif
        cases hif
      · rw [if_neg ht] at hif
        simpa using hif
  · rintro ⟨x, hx, hfx⟩
    refine ⟨x, hx, ?_⟩
    cases x with
    | none => simp at hfx
    | some t =>
      have htk : t.take 10 = s := by simpa using hfx
      have ht : t ≠ "" := by
        intro h
        subst h
        rw [show ("" : String).take 10 = "" from by decide] at htk
        exact hs htk.symm
      show (if t = "" then none else some (t.take 10)) = some s
      rw [if_neg ht, htk]

theorem length_take_str (s : String) (n : Nat) : (s.take n).length = min n s.length := by
  show (s.take n).data.length = _
  rw [String.data_take]
  exact List.length_take n s.data

/-! ## Claim theorems -/

/-- C5: for every current UTC year/month and every month offset (including
0 and offsets crossing a year boundary), `calculateMonthRange` yields a
range whose `startISO` is the first calendar day and whose `endISO` is the
last calendar day (`daysInMonth`, covering 28/29/30/31-day months and leap
years) of the target month — the current month shifted by the offset, the
shift witnessed by the month-index identity — and whose display fields name
that month. -/
theorem calculateMonthRange_months (nowYear : Int) (nowMonth0 : Nat) (offset : Int) :
    ∃ Y : Int, ∃ M : Nat, 1 ≤ M ∧ M ≤ 12 ∧
      Y * 12 + (M : Int) - 1 = nowYear * 12 + nowMonth0 + offset ∧
      calculateMonthRange nowYear nowMonth0 offset =
        { startISO := isoOfDate ⟨Y, M, 1⟩
          endISO := isoOfDate ⟨Y, M, daysInMonth Y M⟩
          displayMonth := M
          displayYear := Y
          startDate := ⟨Y, M, 1⟩
          endDate := ⟨Y, M, daysInMonth Y M⟩ } := by
  have ht0 : (0:Int) ≤ ((nowMonth0 : Int) + offset) % 12 := Int.emod_nonneg _ (by norm_num)
  have ht1 : ((nowMonth0 : Int) + offset) % 12 < 12 := Int.emod_lt_of_pos _ (by norm_num)
  refine ⟨nowYear + ((nowMonth0 : Int) + offset) / 12,
    (((nowMonth0 : Int) + offset) % 12).toNat + 1, by omega, by omega, by omega, ?_⟩
  unfold calculateMonthRange
  rw [jsDateUTC_one]
  have harg : ((((((nowMonth0 : Int) + offset) % 12).toNat + 1 : Nat) : Int)) - 1 + 1
      = (((((nowMonth0 : Int) + offset) % 12).toNat + 1 : Nat) : Int) := by ring
  simp only [harg]
  rw [jsDateUTC_month_zero _ _ (by omega) (by omega)]

/-- C2: for every disabled-record list and every month range,
`computeAvailableDays` returns exactly the calendar dates of the month
(both boundaries inclusive, enumerated in ascending day order) that are
not among the first-10-character take of the records' present date fields;
a record with a missing date field (`none`) is ignored rather than causing
an error. -/
theorem computeAvailableDays_correct (recs : List (Option String)) (Y : Int) (M : Nat)
    (h1 : 1 ≤ M) (h2 : M ≤ 12) :
    computeAvailableDays recs (monthRange Y M) =
      ((List.range' 1 (daysInMonth Y M)).map (fun d => isoOfDate ⟨Y, M, d⟩)).filter
        (fun s => decide (s ∉ recs.filterMap (fun o => o.map (fun t => t.take 10)))) ∧
    computeAvailableDays (none :: recs) (monthRange Y M) =
      computeAvailableDays recs (monthRange Y M) := by
  constructor
  · unfold computeAvailableDays monthRange
    dsimp only
    rw [allDatesFrom_month Y M (daysInMonth Y M) 1 366 (le_refl 1) (by omega)
      (daysInMonth_le_366 Y M)]
    refine List.filter_congr ?_
    intro a ha
    obtain ⟨d, hd, rfl⟩ := List.mem_map.mp ha
    rw [decide_not]
    exact congrArg (fun b => !b)
      (decide_eq_decide.mpr (mem_filterBoolean recs _ (isoOfDate_ne_empty _)))
  · rfl

/-- Witness for C2 at the spec's own scenario: July 2025 with the 1st and
the 5th disabled. -/
theorem computeAvailableDays_correct_witness :
    ((1:Nat) ≤ 7 ∧ (7:Nat) ≤ 12) ∧
    (computeAvailableDays [some "2025-07-01", some "2025-07-05"] (monthRange 2025 7) =
      ((List.range' 1 (daysInMonth 2025 7)).map (fun d => isoOfDate ⟨2025, 7, d⟩)).filter
        (fun s => decide (s ∉ ([some "2025-07-01", some "2025-07-05"] :
          List (Option String)).filterMap (fun o => o.map (fun t => t.take 10)))) ∧
     computeAvailableDays (none :: [some "2025-07-01", some "2025-07-05"])
        (monthRange 2025 7) =
      computeAvailableDays [some "2025-07-01", some "2025-07-05"] (monthRange 2025 7)) :=
  ⟨⟨by decide, by decide⟩,
    computeAvailableDays_correct [some "2025-07-01", some "2025-07-05"] 2025 7
      (by decide) (by decide)⟩

/-- C10: `truncate` bounds its output by `max` (the worker embeds error
messages with `max` 300 in a new-distinct-error notification and 200 in an
escalation notification): a message within the limit is embedded
unchanged, and a message over the limit is cut to `max` characters, its
last three the marker `"..."` appended to the first `max - 3` characters
of the original. -/
theorem truncate_bounds (s : String) (max : Nat) (h3 : 3 ≤ max) :
    (truncate s max).length ≤ max ∧
    (s.length ≤ max → truncate s max = s) ∧
    (max < s.length →
      (truncate s max).length = max ∧ truncate s max = s.take (max - 3) ++ "...") := by
  unfold truncate
  by_cases h : s.length > max
  · have hlen : (s.take (max - 3) ++ "...").length = max := by
      rw [String.length_append, length_take_str]
      have : ("..." : String).length = 3 := by decide
      omega
    rw [if_pos h]
    exact ⟨le_of_eq hlen, fun hle => absurd h (by omega), fun _ => ⟨hlen, rfl⟩⟩
  · rw [if_neg h]
    exact ⟨by omega, fun _ => rfl, fun hlt => absurd hlt h⟩

/-- Witness for C10 at a 301-character message truncated to 300. -/
theorem truncate_bounds_witness :
    3 ≤ 300 ∧
    ((truncate (String.mk (List.replicate 301 'a')) 300).length ≤ 300 ∧
    ((String.mk (List.replicate 301 'a')).length ≤ 300 →
      truncate (String.mk (List.replicate 301 'a')) 300 =
        String.mk (List.replicate 301 'a')) ∧
    (300 < (String.mk (List.replicate 301 'a')).length →
      (truncate (String.mk (List.replicate 301 'a')) 300).length = 300 ∧
      truncate (String.mk (List.replicate 301 'a')) 300 =
        (String.mk (List.replicate 301 'a')).take 297 ++ "...")) :=
  ⟨by decide, truncate_bounds (String.mk (List.replicate 301 'a')) 300 (by decide)⟩

theorem sendTelegram_ok (w : World) (st : St) (text : String) :
    (sendTelegram w st text).2 = Except.ok () := by
  unfold sendTelegram
  by_cases h : text = ""
  · rw [if_pos h]
  · rw [if_neg h]
    by_cases hd : w.tgOk st.tgCnt
    · simp only [hd, if_pos]
    · simp only [hd, if_neg, Bool.false_eq_true, not_false_eq_true]

theorem sendTelegram_kv (w : World) (st : St) (text : String) :
    (sendTelegram w st text).1.kv = st.kv := by
  unfold sendTelegram
  by_cases h : text = ""
  · rw [if_pos h]
  · rw [if_neg h]
    by_cases hd : w.tgOk st.tgCnt
    · simp only [hd, if_pos]
    · simp only [hd, Bool.false_eq_true, if_neg, not_false_eq_true]

theorem sendTelegram_events (w : World) (st : St) (text : String) (h : text ≠ "") :
    (sendTelegram w st text).1.events = st.events ++ [Ev.send text] := by
  unfold sendTelegram
  rw [if_neg h]
  by_cases hd : w.tgOk st.tgCnt
  · simp only [hd, if_pos]
  · simp only [hd, Bool.false_eq_true, if_neg, not_false_eq_true]

theorem sentTexts_append (st : St) (evs : List Ev) :
    sentTexts { st with events := st.events ++ evs } =
      sentTexts st ++ evs.filterMap (fun e =>
        match e with
        | Ev.send t => some t
        | _ => none) := by
  simp [sentTexts, List.filterMap_append]

theorem sentTexts_sendTelegram (w : World) (st : St) (text : String) (h : text ≠ "") :
    sentTexts (sendTelegram w st text).1 = sentTexts st ++ [text] := by
  have he := sendTelegram_events w st text h
  unfold sentTexts
  rw [he, List.filterMap_append]
  rfl

theorem sentTexts_kvPutLastDates (st : St) (v : String) :
    sentTexts (kvPutLastDates st v) = sentTexts st := by
  simp [sentTexts, kvPutLastDates, List.filterMap_append]

theorem buildDatesMessage_length_pos (dates : List String) (range : MonthRange) :
    0 < (buildDatesMessage dates range).length := by
  unfold buildDatesMessage
  dsimp only
  rw [String.length_append, String.length_append, String.length_append]
  have h1 : ("\n" : String).length = 1 := by decide
  omega

theorem buildDatesMessage_ne_empty (dates : List String) (range : MonthRange) :
    buildDatesMessage dates range ≠ "" := by
  intro h
  have hp := buildDatesMessage_length_pos dates range
  rw [h] at hp
  exact absurd hp (by decide)

theorem maybeNotifyNewDates_eq_of_hash (w : World) (st : St) (dates : List String)
    (range : MonthRange) (h : st.kv.lastDates = some (w.sha256Hex (String.intercalate "," dates))) :
    maybeNotifyNewDates w st dates range = (st, Except.ok ()) := by
  unfold maybeNotifyNewDates
  rw [if_pos h]

theorem maybeNotifyNewDates_eq_of_ne (w : World) (st : St) (dates : List String)
    (range : MonthRange)
    (h : ¬ st.kv.lastDates = some (w.sha256Hex (String.intercalate "," dates))) :
    maybeNotifyNewDates w st dates range =
      sendTelegram w (kvPutLastDates st (w.sha256Hex (String.intercalate "," dates)))
        (buildDatesMessage dates range) := by
  unfold maybeNotifyNewDates
  rw [if_neg h]

/-- C3: for every state, two successive notifier calls with the identical
ascending date list send at most one message in total — the second call
finds the stored hash equal and is suppressed — while a call whose computed
hash differs from the stored last-notified hash always POSTs exactly one
message. -/
theorem maybeNotifyNewDates_dedup (w : World) (st : St) (dates : List String)
    (range : MonthRange) :
    sentTexts (maybeNotifyNewDates w
        (maybeNotifyNewDates w st dates range).1 dates range).1 =
      sentTexts (maybeNotifyNewDates w st dates range).1 ∧
    (sentTexts (maybeNotifyNewDates w st dates range).1).length ≤
      (sentTexts st).length + 1 ∧
    (st.kv.lastDates ≠ some (w.sha256Hex (String.intercalate "," dates)) →
      sentTexts (maybeNotifyNewDates w st dates range).1 =
        sentTexts st ++ [buildDatesMessage dates range]) := by
  by_cases h : st.kv.lastDates = some (w.sha256Hex (String.intercalate "," dates))
  · rw [maybeNotifyNewDates_eq_of_hash w st dates range h]
    rw [maybeNotifyNewDates_eq_of_hash w st dates range h]
    exact ⟨rfl, by dsimp only; omega, fun hne => absurd h hne⟩
  · rw [maybeNotifyNewDates_eq_of_ne w st dates range h]
    have hsent := sentTexts_sendTelegram w
      (kvPutLastDates st (w.sha256Hex (String.intercalate "," dates)))
      (buildDatesMessage dates range) (buildDatesMessage_ne_empty dates range)
    have hkv : (sendTelegram w
        (kvPutLastDates st (w.sha256Hex (String.intercalate "," dates)))
        (buildDatesMessage dates range)).1.kv.lastDates =
        some (w.sha256Hex (String.intercalate "," dates)) := by
      rw [sendTelegram_kv]
      rfl
    rw [maybeNotifyNewDates_eq_of_hash w _ dates range hkv]
    rw [hsent, sentTexts_kvPutLastDates]
    refine ⟨rfl, by simp, fun _ => rfl⟩

theorem maybeNotifyNewDates_dedup_witness :
    st0.kv.lastDates ≠ some (wOK.sha256Hex (String.intercalate "," ["2025-07-02"])) ∧
    sentTexts (maybeNotifyNewDates wOK st0 ["2025-07-02"] (monthRange 2025 7)).1 =
      sentTexts st0 ++ [buildDatesMessage ["2025-07-02"] (monthRange 2025 7)] :=
  ⟨by simp [st0], (maybeNotifyNewDates_dedup wOK st0 ["2025-07-02"]
    (monthRange 2025 7)).2.2 (by simp [st0])⟩

/-- C9: when the computed hash differs from the stored last-notified hash,
the notifier appends exactly a `Last_dates` store write carrying the new
hash followed by the Telegram send — the hash is persisted before sending —
and the message sent consists of the month/year header, the first at most
15 dates each on their own line (all of them when there are at most 15),
and, when more than 15 are available, the 15-date message plus a trailing
count of the hidden dates. -/
theorem maybeNotifyNewDates_persist_then_send (w : World) (st : St) (dates : List String)
    (range : MonthRange)
    (h : st.kv.lastDates ≠ some (w.sha256Hex (String.intercalate "," dates))) :
    (maybeNotifyNewDates w st dates range).1.events =
      st.events ++ [Ev.put "Last_dates" (w.sha256Hex (String.intercalate "," dates)),
        Ev.send (buildDatesMessage dates range)] ∧
    (dates.length ≤ 15 →
      buildDatesMessage dates range =
        "✅ Free dates for " ++ pad2 range.displayMonth ++ "/" ++
          toString range.displayYear ++ ":" ++ "\n" ++
          String.intercalate "\n" (dates.map (fun d => "• " ++ d))) ∧
    (15 < dates.length →
      buildDatesMessage dates range =
        buildDatesMessage (dates.take 15) range ++
          "\n…(+" ++ toString (dates.length - 15) ++ " more)") := by
  refine ⟨?_, ?_, ?_⟩
  · rw [maybeNotifyNewDates_eq_of_ne w st dates range h]
    rw [sendTelegram_events _ _ _ (buildDatesMessage_ne_empty dates range)]
    rw [kvPutLastDates]
    rw [List.append_assoc]
    rfl
  · intro h15
    unfold buildDatesMessage
    dsimp only
    rw [if_neg (by omega), List.take_of_length_le h15, String.append_empty]
  · intro h15
    unfold buildDatesMessage
    dsimp only
    rw [if_pos (by omega)]
    have hlen : (dates.take 15).length = 15 := by
      rw [List.length_take]
      omega
    rw [List.take_take]
    rw [if_neg (by omega)]
    rw [String.append_empty]
    simp [String.append_assoc]

theorem maybeNotifyNewDates_persist_then_send_witness :
    (st0.kv.lastDates ≠ some (wOK.sha256Hex (String.intercalate "," julyDates))) ∧
    julyDates.length = 29 ∧
    toString (julyDates.length - 15) = "14" ∧
    ((maybeNotifyNewDates wOK st0 julyDates (monthRange 2025 7)).1.events =
      st0.events ++ [Ev.put "Last_dates" (wOK.sha256Hex (String.intercalate "," julyDates)),
        Ev.send (buildDatesMessage julyDates (monthRange 2025 7))] ∧
    (julyDates.length ≤ 15 →
      buildDatesMessage julyDates (monthRange 2025 7) =
        "✅ Free dates for " ++ pad2 (monthRange 2025 7).displayMonth ++ "/" ++
          toString (monthRange 2025 7).displayYear ++ ":" ++ "\n" ++
          String.intercalate "\n" (julyDates.map (fun d => "• " ++ d))) ∧
    (15 < julyDates.length →
      buildDatesMessage julyDates (monthRange 2025 7) =
        buildDatesMessage (julyDates.take 15) (monthRange 2025 7) ++
          "\n…(+" ++ toString (julyDates.length - 15) ++ " more)")) :=
  ⟨by simp [st0], by rfl, by rfl,
    maybeNotifyNewDates_persist_then_send wOK st0 julyDates (monthRange 2025 7)
      (by simp [st0])⟩

theorem sentTexts_kvPutFailCount (st : St) (v : String) :
    sentTexts (kvPutFailCount st v) = sentTexts st := by
  simp [sentTexts, kvPutFailCount, List.filterMap_append]

theorem sentTexts_kvPutLastErrorMsg (st : St) (v : String) :
    sentTexts (kvPutLastErrorMsg st v) = sentTexts st := by
  simp [sentTexts, kvPutLastErrorMsg, List.filterMap_append]

theorem errorMsgText_ne_empty (a b : String) :
    "❗ Error: " ++ a ++ " (fail #" ++ b ++ ")" ≠ "" := by
  intro hcontra
  have hl := congrArg String.length hcontra
  rw [String.length_append, String.length_append, String.length_append,
    String.length_append] at hl
  have h1 : ("❗ Error: " : String).length = 9 := by decide
  have h0 : ("" : String).length = 0 := by decide
  omega

theorem stillFailingText_ne_empty (a b : String) :
    "⚠️ Still failing (" ++ a ++ " times): " ++ b ≠ "" := by
  intro hcontra
  have hl := congrArg String.length hcontra
  rw [String.length_append, String.length_append, String.length_append] at hl
  have h1 : ("⚠️ Still failing (" : String).length = 18 := by decide
  have h0 : ("" : String).length = 0 := by decide
  omega

/-- C4: on a failure whose message equals the last recorded error message,
an escalation notification is sent exactly when the incremented
consecutive-failure count is 3, 5 or a multiple of 10, and nothing is sent
otherwise; on a failure whose message differs, a new-distinct-error
notification is always sent and the new message is persisted as
`last_error_msg`.  (`n` is the stored counter as `parseInt` reads it;
every counter the worker itself stores is such a non-negative numeral.) -/
theorem recordFailure_escalation (w : World) (st : St) (msg : String) (n : Int)
    (hn : jsParseInt10 ((st.kv.failCount).getD "0") = some n) (h0 : 0 ≤ n) :
    (st.kv.lastErrorMsg = some msg →
      ((n + 1 = 3 ∨ n + 1 = 5 ∨ (n + 1) % 10 = 0) →
        sentTexts (recordFailureAndMaybeNotify w st msg).1 =
          sentTexts st ++
            ["⚠️ Still failing (" ++ toString (n + 1) ++ " times): " ++ truncate msg 200]) ∧
      (¬ (n + 1 = 3 ∨ n + 1 = 5 ∨ (n + 1) % 10 = 0) →
        sentTexts (recordFailureAndMaybeNotify w st msg).1 = sentTexts st)) ∧
    (st.kv.lastErrorMsg ≠ some msg →
      sentTexts (recordFailureAndMaybeNotify w st msg).1 =
        sentTexts st ++
          ["❗ Error: " ++ truncate msg 300 ++ " (fail #" ++ toString (n + 1) ++ ")"] ∧
      (recordFailureAndMaybeNotify w st msg).1.kv.lastErrorMsg = some msg) := by
  have htm : Int.tmod (n + 1) 10 = (n + 1) % 10 :=
    Int.tmod_eq_emod (by omega) (by norm_num)
  unfold recordFailureAndMaybeNotify
  rw [hn]
  dsimp only
  constructor
  · intro hmsg
    have hcond : ¬ ((kvPutFailCount st (toString (n + 1))).kv.lastErrorMsg ≠ some msg) := by
      simp [kvPutFailCount, hmsg]
    rw [if_neg hcond]
    constructor
    · intro hesc
      rw [if_pos (by rw [htm]; exact hesc)]
      rw [sentTexts_sendTelegram _ _ _ (stillFailingText_ne_empty _ _)]
      rw [sentTexts_kvPutFailCount]
    · intro hesc
      rw [if_neg (by rw [htm]; exact hesc)]
      dsimp only
      rw [sentTexts_kvPutFailCount]
  · intro hmsg
    have hcond : (kvPutFailCount st (toString (n + 1))).kv.lastErrorMsg ≠ some msg := by
      simpa [kvPutFailCount] using hmsg
    rw [if_pos hcond]
    constructor
    · rw [sentTexts_sendTelegram _ _ _ (errorMsgText_ne_empty _ _)]
      rw [sentTexts_kvPutLastErrorMsg, sentTexts_kvPutFailCount]
    · rw [sendTelegram_kv]
      rfl

theorem recordFailure_escalation_witness :
    (jsParseInt10 (((
      { st0 with kv := { st0.kv with failCount := some "2", lastErrorMsg := some "boom" }
      } : St).kv.failCount).getD "0") = some 2 ∧ (0:Int) ≤ 2) ∧
    ((2:Int) + 1 = 3 ∨ (2:Int) + 1 = 5 ∨ ((2:Int) + 1) % 10 = 0) ∧
    ({ st0 with kv := { st0.kv with failCount := some "2", lastErrorMsg := some "boom" }
      } : St).kv.lastErrorMsg = some "boom" ∧
    sentTexts (recordFailureAndMaybeNotify w401
      { st0 with kv := { st0.kv with failCount := some "2", lastErrorMsg := some "boom" } }
      "boom").1 =
      sentTexts ({ st0 with kv :=
        { st0.kv with failCount := some "2", lastErrorMsg := some "boom" } } : St) ++
        ["⚠️ Still failing (" ++ toString ((2:Int) + 1) ++ " times): " ++ truncate "boom" 200] :=
  ⟨⟨by rfl, by norm_num⟩, by norm_num, by rfl,
    ((recordFailure_escalation w401
      { st0 with kv := { st0.kv with failCount := some "2", lastErrorMsg := some "boom" } }
      "boom" 2 (by rfl) (by norm_num)).1 (by rfl)).1 (by norm_num)⟩

theorem maybeNotifyNewDates_ok (w : World) (st : St) (dates : List String)
    (range : MonthRange) : (maybeNotifyNewDates w st dates range).2 = Except.ok () := by
  by_cases h : st.kv.lastDates = some (w.sha256Hex (String.intercalate "," dates))
  · rw [maybeNotifyNewDates_eq_of_hash w st dates range h]
  · rw [maybeNotifyNewDates_eq_of_ne w st dates range h]
    exact sendTelegram_ok _ _ _

theorem recordFailure_ok (w : World) (st : St) (msg : String) :
    (recordFailureAndMaybeNotify w st msg).2 = Except.ok () := by
  unfold recordFailureAndMaybeNotify
  cases hp : jsParseInt10 ((st.kv.failCount).getD "0") with
  | some prev =>
    dsimp only
    by_cases h1 : (kvPutFailCount st (toString (prev + 1))).kv.lastErrorMsg ≠ some msg
    · rw [if_pos h1]
      exact sendTelegram_ok _ _ _
    · rw [if_neg h1]
      by_cases h2 : ((prev : Int) + 1 = 3 ∨ (prev : Int) + 1 = 5 ∨
          Int.tmod ((prev : Int) + 1) 10 = 0)
      · rw [if_pos h2]
        exact sendTelegram_ok _ _ _
      · rw [if_neg h2]
  | none =>
    dsimp only
    by_cases h1 : (kvPutFailCount st "NaN").kv.lastErrorMsg ≠ some msg
    · rw [if_pos h1]
      exact sendTelegram_ok _ _ _
    · rw [if_neg h1]

theorem runCatch_ok (w : World) (st : St) (e : String) :
    (runCatch w st e).2 = Except.ok () := by
  unfold runCatch
  exact recordFailure_ok _ _ _

theorem runCheckTry_ok_fields (env : Env) (w : World) (fuel : Nat) (st st1 : St)
    (h : runCheckTry env w fuel st = (st1, Except.ok ())) :
    st1.kv.failCount = some "0" ∧ st1.kv.lastErrorMsg = none := by
  unfold runCheckTry at h
  cases hA : ensureAuth w st with
  | mk stA rA =>
    rw [hA] at h
    cases rA with
    | error e => simp at h
    | ok cookie =>
      dsimp only at h
      cases hF : fetchAvailableDates env w cookie fuel stA with
      | mk stF rF =>
        rw [hF] at h
        cases rF with
        | error e => simp at h
        | ok p =>
          dsimp only at h
          by_cases hd : 0 < p.1.length
          · rw [if_pos hd] at h
            cases hN : maybeNotifyNewDates w stF p.1 p.2 with
            | mk stN rN =>
              rw [hN] at h
              cases rN with
              | error e => simp at h
              | ok u =>
                dsimp only at h
                simp only [Prod.mk.injEq] at h
                rw [← h.1]
                exact ⟨rfl, rfl⟩
          · rw [if_neg hd] at h
            simp only [Prod.mk.injEq] at h
            rw [← h.1]
            exact ⟨rfl, rfl⟩

/-- C6: after every successful check cycle — the try-block returning
without an exception, which includes the zero-available-dates branch — the
persisted `fail_count` is the string `"0"` and `last_error_msg` is absent. -/
theorem runCheck_success_resets (env : Env) (w : World) (fuel : Nat) (st : St)
    (h : (runCheckTry env w fuel st).2 = Except.ok ()) :
    (runCheck env w fuel st).1.kv.failCount = some "0" ∧
    (runCheck env w fuel st).1.kv.lastErrorMsg = none := by
  unfold runCheck
  cases htry : runCheckTry env w fuel st with
  | mk st1 r =>
    rw [htry] at h
    dsimp only at h
    cases r with
    | error e => exact absurd h (by simp)
    | ok u =>
      dsimp only
      exact runCheckTry_ok_fields env w fuel st st1 (by rw [htry])

theorem runCheck_success_resets_witness :
    (runCheckTry env0 wOK 2 st0).2 = Except.ok () ∧
    ((runCheck env0 wOK 2 st0).1.kv.failCount = some "0" ∧
     (runCheck env0 wOK 2 st0).1.kv.lastErrorMsg = none) :=
  ⟨by rfl, runCheck_success_resets env0 wOK 2 st0 (by rfl)⟩

/-- C7: `runCheck` never surfaces an error to its caller (the timer or
manual trigger): for every oracle and state its result is `Except.ok`, and
either the try-block succeeded and its state is returned unchanged, or the
try-block raised some exception and the final state is exactly the
catch-block — the failure tracker — applied to that exception. -/
theorem runCheck_catches_all (env : Env) (w : World) (fuel : Nat) (st : St) :
    (runCheck env w fuel st).2 = Except.ok () ∧
    ((runCheckTry env w fuel st).2 = Except.ok () ∧
        (runCheck env w fuel st).1 = (runCheckTry env w fuel st).1 ∨
      (∃ e, (runCheckTry env w fuel st).2 = Except.error e ∧
        runCheck env w fuel st = runCatch w (runCheckTry env w fuel st).1 e)) := by
  unfold runCheck
  cases htry : runCheckTry env w fuel st with
  | mk st1 r =>
    cases r with
    | ok u =>
      dsimp only
      exact ⟨rfl, Or.inl ⟨rfl, rfl⟩⟩
    | error e =>
      dsimp only
      exact ⟨runCatch_ok w st1 e, Or.inr ⟨e, rfl, rfl⟩⟩

/-- C8: a failing Telegram send is logged only and never escalated: for
every oracle (including one whose Telegram endpoint rejects every message)
`sendTelegram` raises no error to its caller and leaves the store — in
particular `fail_count` — untouched, and the notifier built on it raises
no error either, so a failed alert can never trigger the failure-tracking
path. -/
theorem sendTelegram_never_escalates (w : World) (st : St) (text : String)
    (dates : List String) (range : MonthRange) :
    (sendTelegram w st text).2 = Except.ok () ∧
    (sendTelegram w st text).1.kv = st.kv ∧
    (maybeNotifyNewDates w st dates range).2 = Except.ok () :=
  ⟨sendTelegram_ok w st text, sendTelegram_kv w st text,
    maybeNotifyNewDates_ok w st dates range⟩

/-- C1: under persistent 401 responses with always-succeeding logins, the
availability fetch performs one request per 401 response with no bound —
`fuel` requests within fuel `fuel`, hence more than two requests already at
fuel 5 — and the run ends in the model's fuel-exhaustion sentinel, which
the unbounded source recursion can never produce (it simply never
terminates there).  This refutes the claimed at-most-two-requests bound:
the single-retry intent of the source's own comment is not enforced. -/
theorem fetchAvailableDates_persistent401_unbounded :
    (∀ (fuel : Nat) (st : St),
      (fetchAvailableDates env0 w401 cookie0 fuel st).1.fetchCnt = st.fetchCnt + fuel) ∧
    2 < (fetchAvailableDates env0 w401 cookie0 5 st0).1.fetchCnt ∧
    (fetchAvailableDates env0 w401 cookie0 5 st0).2 =
      Except.error "model: fuel exhausted in unbounded 401-retry recursion" := by
  have hgen : ∀ (fuel : Nat) (st : St),
      (fetchAvailableDates env0 w401 cookie0 fuel st).1.fetchCnt = st.fetchCnt + fuel := by
    intro fuel
    induction fuel with
    | zero => intro st; rfl
    | succ f ih =>
      intro st
      rw [fetchAvailableDates]
      dsimp only
      rw [if_pos (by left; rfl)]
      have hlog : login w401 (kvDelCookie { st with fetchCnt := st.fetchCnt + 1 }) =
          (kvPutLastAuth (kvPutCookie
              { kvDelCookie { st with fetchCnt := st.fetchCnt + 1 } with
                loginCnt :=
                  (kvDelCookie { st with fetchCnt := st.fetchCnt + 1 }).loginCnt + 1 }
              cookie0) (timestamp w401), Except.ok cookie0) := by
        rfl
      rw [hlog]
      dsimp only
      rw [ih]
      dsimp only [kvPutLastAuth, kvPutCookie, kvDelCookie]
      omega
  refine ⟨hgen, ?_, by rfl⟩
  rw [hgen 5 st0]
  show 2 < st0.fetchCnt + 5
  norm_num [st0]


end AlmavivaWorker
